import Mathlib

/-!
Verification of the catalog and plan-resolution engine of the atlas-osb
service broker (pkg/broker/services.go and pkg/broker/broker.go), as a
shallow embedding in Lean.  Strings are modelled through their underlying
character lists; Go maps are modelled as association lists (first match
wins on lookup, mirroring overwrite-on-insert); external collaborators
(the backend metadata client, the YAML decoder, the instance-metadata
store, template execution) are modelled as function-valued fields of the
broker record.  The file is organized as definitions first, theorems
second.
-/

namespace AtlasOSB

/-! ## Definitions -/

/-! ### Characters and lowercasing

Models the ASCII case mapping performed by strings.ToLower in Go.  Every
string that the broker lowercases is built from ASCII characters (the
provider names, instance-size names and the output alphabet of the
normalizer), where the Go function and this model agree.
-/

/-- ASCII lowercasing of a single character, as strings.ToLower does for
the ASCII range: code points 65..90 are shifted by 32, all others kept. -/
def lowerChar (c : Char) : Char :=
  if 65 ≤ c.toNat ∧ c.toNat ≤ 90 then Char.ofNat (c.toNat + 32) else c

/-- Lowercasing of a whole string, characterwise. -/
def lowerStr (s : String) : String :=
  ⟨s.data.map lowerChar⟩

/-! ### The identifier normalizer (services.go)

The source applies the regular expression matching runs of characters
outside [-a-zA-Z0-9] with replacement string underscore and then
lowercases:

  forbiddenSymbols = regexp.MustCompile(...)
  func normalizeID(id string) string ...
    return strings.ToLower(forbiddenSymbols.ReplaceAllString(id, ...))
-/

/-- Whether a character is matched by the forbiddenSymbols character
class, i.e. lies outside [-a-zA-Z0-9]. -/
def forbiddenChar (c : Char) : Bool :=
  !(c.toNat = 45 || (48 ≤ c.toNat && c.toNat ≤ 57) ||
    (65 ≤ c.toNat && c.toNat ≤ 90) || (97 ≤ c.toNat && c.toNat ≤ 122))

/-- ReplaceAllString for the forbiddenSymbols regex with replacement
underscore: every maximal run of forbidden characters becomes a single
underscore.  The boolean flag records whether the previous character
belonged to a forbidden run. -/
def replaceRuns (inRun : Bool) : List Char → List Char
  | [] => []
  | c :: cs =>
    if forbiddenChar c then
      if inRun then replaceRuns true cs else '_' :: replaceRuns true cs
    else
      c :: replaceRuns false cs

/-- normalizeID from services.go: replace forbidden runs, then lowercase. -/
def normalizeID (id : String) : String :=
  ⟨(replaceRuns false id.data).map lowerChar⟩

/-- Characters legal in normalizer output: lowercase letters, digits,
dash and underscore. -/
def outChar (c : Char) : Bool :=
  c.toNat = 45 || c.toNat = 95 || (48 ≤ c.toNat && c.toNat ≤ 57) ||
    (97 ≤ c.toNat && c.toNat ≤ 122)

/-- Whether the head of the list, if any, is an allowed character. -/
def headAllowed : List Char → Bool
  | [] => true
  | c :: _ => !forbiddenChar c

/-- A list is in normalized shape when each forbidden character in it is
an underscore followed by an allowed character or the end of the list. -/
def isolatedRuns : List Char → Bool
  | [] => true
  | c :: cs =>
    (if forbiddenChar c then c == '_' && headAllowed cs else true) && isolatedRuns cs

/-! ### Identifier synthesis (services.go) -/

/-- InstanceSize as used by the broker: the atlas package structure,
restricted to the Name field, the only field the broker reads. -/
structure InstanceSize where
  name : String
deriving DecidableEq

/-- idPrefix from services.go, prepended to service and plan IDs. -/
def idPrefix : String := "aosb-cluster"

/-- providerNames from services.go: the fixed provider enumeration. -/
def providerNames : List String := ["AWS", "GCP", "AZURE", "TENANT"]

/-- serviceIDForProvider from services.go. -/
def serviceIDForProvider (providerName : String) : String :=
  idPrefix ++ "-service-" ++ lowerStr providerName

/-- planIDForInstanceSize from services.go: prefix, lowercased provider
name, lowercased size name, and the raw group ID when nonempty. -/
def planIDForInstanceSize (providerName : String) (instanceSize : InstanceSize)
    (groupID : String) : String :=
  let result := idPrefix ++ "-plan-" ++ lowerStr providerName ++ "-" ++ lowerStr instanceSize.name
  if groupID = "" then result else result ++ "-" ++ groupID

/-- planIDForDynamicPlan from services.go. -/
def planIDForDynamicPlan (providerName : String) (planName : String) : String :=
  idPrefix ++ "-plan-" ++ lowerStr providerName ++ "-" ++ lowerStr planName

/-! ### Data model -/

/-- Modelled from the spec: an API key pair of the credentials package
(not under src); the broker reads the PublicKey, PrivateKey and Desc
fields. -/
structure APIKey where
  publicKey : String
  privateKey : String
  desc : String
deriving DecidableEq

/-- Modelled from the spec: the credentials registry (credentials package,
not under src): a tenant-keyed project map and an organization-keyed map
used only as template input. -/
structure Credentials where
  projects : List (String × APIKey)
  orgs : List (String × APIKey)
deriving DecidableEq

/-- Provider metadata fetched from the backend: name plus the map from
instance-size name to instance size. -/
structure Provider where
  name : String
  instanceSizes : List (String × InstanceSize)
deriving DecidableEq

/-- Provider settings of a decoded dynamic plan
(cluster.providerSettings). -/
structure ProviderSettings where
  providerName : String
  instanceSizeName : String
deriving DecidableEq

/-- Cluster section of a decoded dynamic plan. -/
structure DPCluster where
  name : String
  providerSettings : Option ProviderSettings
deriving DecidableEq

/-- Project (tenant) reference of a decoded dynamic plan. -/
structure DPProject where
  id : String
  name : String
deriving DecidableEq

/-- Modelled from the spec: dynamicplans.Plan (dynamicplans package, not
under src) restricted to the fields the broker reads: name, description,
free flag, optional project reference and optional cluster section. -/
structure DPlan where
  name : String
  description : String
  free : Option Bool
  project : Option DPProject
  cluster : Option DPCluster
deriving DecidableEq

/-- Modelled from the spec: the template rendering context produced by
dynamicplans.DefaultCtx (dynamicplans package, not under src): the full
credentials, an instance identifier, a non-nil project reference with
empty ID, and the cluster provider-name override. -/
structure TemplateCtx where
  credentials : Credentials
  instanceID : String
  project : DPProject
  clusterProviderName : String

/-- Modelled from the spec: DefaultCtx builds the context from the
credentials with all other fields empty. -/
def DefaultCtx (c : Credentials) : TemplateCtx :=
  { credentials := c, instanceID := "", project := { id := "", name := "" },
    clusterProviderName := "" }

/-- A loaded plan template: its name and its execution against a context,
which may fail (text/template execution is external; the rendered text is
returned on success). -/
structure Template where
  name : String
  execute : TemplateCtx → Except String String

/-- Opaque plan metadata (domain.ServicePlanMetadata.AdditionalMetadata),
restricted to the three keys the broker stores: the originating template,
the resolved instance size and the tenant group ID. -/
structure PlanMetadata where
  template : Option Template
  instanceSize : Option InstanceSize
  groupID : Option String

/-- domain.ServicePlan restricted to the fields the broker writes. -/
structure ServicePlan where
  id : String
  name : String
  description : String
  free : Option Bool
  metadata : Option PlanMetadata

/-- domain.Service restricted to the fields the broker writes. -/
structure Service where
  id : String
  name : String
  description : String
  bindable : Bool
  instancesRetrievable : Bool
  bindingsRetrievable : Bool
  planUpdatable : Bool
  plans : List ServicePlan

/-- sharedService from services.go: the hardcoded TENANT service with the
two fixed instance-size plans. -/
def sharedService : Service :=
  { id := "aosb-cluster-service-tenant"
    name := "mongodb-atlas-tenant"
    description := "Atlas cluster hosted on \"TENANT\""
    bindable := true
    instancesRetrievable := false
    bindingsRetrievable := false
    planUpdatable := true
    plans :=
      [ { id := "aosb-cluster-plan-tenant-m2", name := "M2",
          description := "Instance size \"M2\"", free := none, metadata := none },
        { id := "aosb-cluster-plan-tenant-m5", name := "M5",
          description := "Instance size \"M5\"", free := none, metadata := none } ] }

/-- The four operating modes (mode.go of the broker package). -/
inductive Mode
  | BasicAuth
  | MultiGroup
  | MultiGroupAutoPlans
  | DynamicPlans
deriving DecidableEq

/-- Errors of the instance-metadata store: the mongo ErrNoDocuments
sentinel, which the broker treats as a new instance, or any other
failure. -/
inductive StoreErr
  | noDocuments
  | other (msg : String)
deriving DecidableEq

/-- A value of the persisted instance-metadata document: a string or a
value of some other dynamic type. -/
inductive PVal
  | str (s : String)
  | nonString
deriving DecidableEq

/-- The broker record (broker.go), with its external collaborators
modelled as function fields: fetchProvider is the backend metadata
client, yamlDecode the YAML library decoding rendered text into a plan,
store the persisted instance-metadata lookup keyed by instance ID, and
templates the dynamic plan templates loaded from the environment. -/
structure Broker where
  whitelist : Option (List (String × List String))
  credentials : Credentials
  baseURL : String
  mode : Mode
  templates : List Template
  fetchProvider : String → Except String Provider
  yamlDecode : String → Except String DPlan
  store : String → Except StoreErr (List (String × PVal))

/-- The catalog aggregate.  Modelled from the spec for the parts of
catalog.go not under src: the ordered service list, the plan lookup by
plan ID and the provider lookup by service ID. -/
structure Catalog where
  services : List Service
  plans : List (String × ServicePlan)
  providers : List (String × Provider)

/-- Modelled from the spec: newCatalog yields the empty catalog. -/
def newCatalog : Catalog := { services := [], plans := [], providers := [] }

/-! ### Plan builders (services.go) -/

/-- buildPlansForProviderStatic: one plan per instance size, no tenant
qualifier.  Iterates the values of the instance-size map. -/
def buildPlansForProviderStatic (provider : Provider) : List ServicePlan :=
  provider.instanceSizes.map fun kv =>
    { id := planIDForInstanceSize provider.name kv.2 ""
      name := kv.2.name
      description := "Instance size \"" ++ kv.2.name ++ "\""
      free := none
      metadata := some { template := none, instanceSize := some kv.2, groupID := none } }

/-- One auto-expanded plan for a size and a credentials entry: the plan
name is disambiguated by the normalized key description, or by the group
ID when the description is empty. -/
def autoPlanFor (provider : Provider) (sz : InstanceSize) (entry : String × APIKey) :
    ServicePlan :=
  let nid := if entry.2.desc ≠ "" then normalizeID entry.2.desc else entry.1
  { id := planIDForInstanceSize provider.name sz entry.1
    name := sz.name ++ "-" ++ nid
    description := "Instance size \"" ++ sz.name ++ "\""
    free := none
    metadata := some { template := none, instanceSize := some sz, groupID := some entry.1 } }

/-- buildPlansForProviderAuto: one plan per instance size and credentials
project entry. -/
def buildPlansForProviderAuto (b : Broker) (provider : Provider) : List ServicePlan :=
  provider.instanceSizes.flatMap fun kv =>
    b.credentials.projects.map (autoPlanFor provider kv.2)

/-- The rendering context used during the dynamic catalog build: the
default context with the cluster provider name pre-set to the provider
being processed. -/
def dynCtx (b : Broker) (provider : Provider) : TemplateCtx :=
  { DefaultCtx b.credentials with clusterProviderName := provider.name }

/-- Validation applied to a decoded dynamic plan, as in services.go: the
plan is invalid when the cluster is missing, the provider settings are
missing, or the instance-size name is empty. -/
def invalidDPlan (p : DPlan) : Bool :=
  match p.cluster with
  | none => true
  | some cl =>
    match cl.providerSettings with
    | none => true
    | some ps => ps.instanceSizeName == ""

/-- Map indexing with the Go zero value for a missing key, as in
provider.InstanceSizes[name]. -/
def lookupSize (sizes : List (String × InstanceSize)) (k : String) : InstanceSize :=
  (sizes.lookup k).getD { name := "" }

/-- The fate of one template during the dynamic build: execute the
template against the context, decode the result, validate it, skip it
when its declared provider name disagrees with the provider being
processed, and otherwise emit the service plan.  Every failure yields
none (the source logs and continues). -/
def dynPlanForTemplate (b : Broker) (provider : Provider) (t : Template) :
    Option ServicePlan :=
  match t.execute (dynCtx b provider) with
  | .error _ => none
  | .ok raw =>
    match b.yamlDecode raw with
    | .error _ => none
    | .ok p =>
      if invalidDPlan p then none
      else
        match p.cluster with
        | none => none
        | some cl =>
          match cl.providerSettings with
          | none => none
          | some ps =>
            if ps.providerName ≠ "" ∧ ps.providerName ≠ provider.name then none
            else
              some { id := planIDForDynamicPlan provider.name p.name
                     name := p.name
                     description := p.description
                     free := p.free
                     metadata := some { template := some t
                                        instanceSize := some (lookupSize provider.instanceSizes ps.instanceSizeName)
                                        groupID := none } }

/-- buildPlansForProviderDynamic: evaluate every loaded template, keeping
the plans that render, decode, validate and match the provider. -/
def buildPlansForProviderDynamic (b : Broker) (provider : Provider) : List ServicePlan :=
  b.templates.filterMap (dynPlanForTemplate b provider)

/-- buildPlansForProvider: mode dispatch.  The MultiGroup arm models the
Go panic (not implemented) as none; all other arms return plans. -/
def buildPlansForProvider (b : Broker) (provider : Provider) : Option (List ServicePlan) :=
  match b.mode with
  | .BasicAuth => some (buildPlansForProviderStatic provider)
  | .MultiGroup => none
  | .MultiGroupAutoPlans => some (buildPlansForProviderAuto b provider)
  | .DynamicPlans => some (buildPlansForProviderDynamic b provider)

/-- buildService: the service envelope for a fetched provider. -/
def mkService (provider : Provider) (plans : List ServicePlan) : Service :=
  { id := serviceIDForProvider provider.name
    name := "mongodb-atlas-" ++ lowerStr provider.name
    description := "Atlas cluster hosted on \"" ++ provider.name ++ "\""
    bindable := true
    instancesRetrievable := false
    bindingsRetrievable := false
    planUpdatable := true
    plans := plans }

/-! ### Catalog assembly (services.go buildCatalog) -/

/-- Catalog build failures: a failed provider-metadata fetch, or the Go
panic raised for the unimplemented MultiGroup plan strategy. -/
inductive BuildErr
  | fetch (msg : String)
  | notImplementedPanic
deriving DecidableEq

/-- Whether a provider survives the whitelist gate at the top of the
build loop: with no whitelist every provider does; with a whitelist only
providers having an entry do. -/
def admitted (b : Broker) (pn : String) : Bool :=
  match b.whitelist with
  | none => true
  | some wl => (wl.lookup pn).isSome

/-- Modelled from the spec: applyWhitelist (catalog.go, not under src)
keeps only plans whose name appears in the whitelisted set. -/
def applyWhitelist (plans : List ServicePlan) (allowed : List String) : List ServicePlan :=
  plans.filter fun p => allowed.contains p.name

/-- The whitelist filtering applied to a built service: nothing without a
whitelist, otherwise applyWhitelist with the provider entry. -/
def wlFilterFor (b : Broker) (pn : String) (plans : List ServicePlan) : List ServicePlan :=
  match b.whitelist with
  | none => plans
  | some wl => applyWhitelist plans ((wl.lookup pn).getD [])

/-- One provider of the build loop, before whitelist filtering: the
hardcoded shared service for TENANT without any backend call; otherwise
fetch the provider and build its service, recording the provider for the
catalog index. -/
def rawServiceFor (b : Broker) (pn : String) : Except BuildErr (Service × Option Provider) :=
  if pn = "TENANT" then .ok (sharedService, none)
  else
    match b.fetchProvider pn with
    | .error e => .error (.fetch e)
    | .ok provider =>
      match buildPlansForProvider b provider with
      | none => .error .notImplementedPanic
      | some plans => .ok (mkService provider plans, some provider)

/-- One iteration of the build loop over a provider name: skip it when
the whitelist has no entry; otherwise build the service, filter its
plans, index every plan by ID and append the service. -/
def buildStep (b : Broker) (cat : Catalog) (pn : String) : Except BuildErr Catalog :=
  if admitted b pn then
    match rawServiceFor b pn with
    | .error e => .error e
    | .ok (svc0, provOpt) =>
      let cat1 :=
        match provOpt with
        | some provider => { cat with providers := (svc0.id, provider) :: cat.providers }
        | none => cat
      let svc := { svc0 with plans := wlFilterFor b pn svc0.plans }
      .ok { cat1 with
            plans := svc.plans.foldl (fun m p => (p.id, p) :: m) cat1.plans
            services := cat1.services ++ [svc] }
  else .ok cat

/-- The build loop.  On failure of a step it returns the catalog as
mutated so far together with the error, matching the Go code where
b.catalog is assigned before the loop and mutated in place. -/
def goBuild (b : Broker) : List String → Catalog → Catalog × Option BuildErr
  | [], cat => (cat, none)
  | pn :: rest, cat =>
    match buildStep b cat pn with
    | .error e => (cat, some e)
    | .ok cat2 => goBuild b rest cat2

/-- buildCatalog from services.go: loop over the fixed provider names
starting from the fresh catalog. -/
def buildCatalogGo (b : Broker) : Catalog × Option BuildErr :=
  goBuild b providerNames newCatalog

/-- Services from services.go, with the lazily built catalog state made
explicit: when a catalog is present return its services; otherwise build,
store whatever buildCatalog left behind, and propagate any error. -/
def Services (b : Broker) (catalogState : Option Catalog) :
    Option Catalog × Except BuildErr (List Service) :=
  match catalogState with
  | some cat => (some cat, .ok cat.services)
  | none =>
    match buildCatalogGo b with
    | (cat, some e) => (some cat, .error e)
    | (cat, none) => (some cat, .ok cat.services)

/-- All plan identifiers of a catalog, service by service. -/
def allPlanIDs (cat : Catalog) : List String :=
  (cat.services.map fun s => s.plans.map fun p => p.id).flatten

/-- The service a provider name contributes to a successful build: none
when the whitelist omits it, otherwise the built service with filtered
plans. -/
def finalServiceFor (b : Broker) (pn : String) : Except BuildErr Service :=
  (rawServiceFor b pn).map fun sp => { sp.1 with plans := wlFilterFor b pn sp.1.plans }

/-- The optional catalog entry of one provider name. -/
def svcEntry (b : Broker) (pn : String) : Option Service :=
  if admitted b pn then (finalServiceFor b pn).toOption else none

/-! ### Tenant and credential resolution (broker.go) -/

/-- Request-level resolution failures, one constructor per return site in
broker.go. -/
inductive ResErr
  | noClientInContext
  | noGroupIDInContext
  | storeFailed (msg : String)
  | groupIDNotFound (instanceID : String)
  | groupIDWrongType
  | planNotFound (planID : String)
  | noTemplateInPlan
  | renderFailed (msg : String)
  | decodeFailed (msg : String)
  | projectIDNotFoundInParams
  | missingProjectInPlan
  | credentialsNotFound (groupID : String)
  | groupIDByPlanNotFound (planID : String)
deriving DecidableEq

/-- The authenticated backend client handle built from a key pair and the
base URL (the digest transport construction is external and modelled as
always succeeding). -/
structure AtlasClient where
  publicKey : String
  privateKey : String
  baseURL : String
deriving DecidableEq

/-- getGroupIDByInstanceID from broker.go: a missing metadata document is
not an error and yields the empty group ID; any other store failure
propagates; a present document must carry a string groupID field. -/
def getGroupIDByInstanceID (b : Broker) (instanceID : String) : Except ResErr String :=
  match b.store instanceID with
  | .error .noDocuments => .ok ""
  | .error (.other msg) => .error (.storeFailed msg)
  | .ok doc =>
    match doc.lookup "groupID" with
    | none => .error (.groupIDNotFound instanceID)
    | some (.str gid) => .ok gid
    | some .nonString => .error .groupIDWrongType

/-- parsePlan from broker.go: look the plan up in the catalog, recover
its template from the plan metadata, render it against the default
context merged with the decoded raw parameters, and decode the result.
The JSON unmarshalling of raw parameters is external; rawParams is the
merged context when parameters were passed. -/
def parsePlan (b : Broker) (cat : Catalog) (planID : String)
    (rawParams : Option TemplateCtx) : Except ResErr DPlan :=
  match cat.plans.lookup planID with
  | none => .error (.planNotFound planID)
  | some sp =>
    match sp.metadata.bind fun m => m.template with
    | none => .error .noTemplateInPlan
    | some tpl =>
      let params := rawParams.getD (DefaultCtx b.credentials)
      match tpl.execute params with
      | .error e => .error (.renderFailed e)
      | .ok raw =>
        match b.yamlDecode raw with
        | .error e => .error (.decodeFailed e)
        | .ok dp => .ok dp

/-- The shared tail of getClient: look the resolved group ID up in the
credentials and build the backend client from its key pair. -/
def resolveCreds (b : Broker) (gid : String) : Except ResErr (AtlasClient × String) :=
  match b.credentials.projects.lookup gid with
  | none => .error (.credentialsNotFound gid)
  | some key =>
    .ok ({ publicKey := key.publicKey, privateKey := key.privateKey, baseURL := b.baseURL }, gid)

/-- Modelled from the spec: findGroupIDByPlanID (catalog.go, not under
src) reverse-resolves the tenant recorded in the metadata of an
auto-generated plan. -/
def findGroupIDByPlanID (cat : Catalog) (planID : String) : Except ResErr String :=
  match cat.plans.lookup planID with
  | none => .error (.groupIDByPlanNotFound planID)
  | some sp =>
    match sp.metadata.bind fun m => m.groupID with
    | none => .error (.groupIDByPlanNotFound planID)
    | some gid => .ok gid

/-- getClient from broker.go: the per-mode tenant resolution state
machine.  ctxClient and ctxGroupID model the values stored in the request
context by the BasicAuth middleware. -/
def getClient (b : Broker) (cat : Catalog) (ctxClient : Option AtlasClient)
    (ctxGroupID : Option String) (instanceID planID : String)
    (rawParams : Option TemplateCtx) : Except ResErr (AtlasClient × String) :=
  match b.mode with
  | .BasicAuth =>
    match ctxClient with
    | none => .error .noClientInContext
    | some client =>
      match ctxGroupID with
      | none => .error .noGroupIDInContext
      | some gid => .ok (client, gid)
  | .MultiGroup =>
    match getGroupIDByInstanceID b instanceID with
    | .error e => .error e
    | .ok gid =>
      if gid ≠ "" then resolveCreds b gid
      else
        let params := rawParams.getD (DefaultCtx b.credentials)
        if params.project.id = "" then .error .projectIDNotFoundInParams
        else resolveCreds b params.project.id
  | .MultiGroupAutoPlans =>
    match findGroupIDByPlanID cat planID with
    | .error e => .error e
    | .ok gid => resolveCreds b gid
  | .DynamicPlans =>
    match getGroupIDByInstanceID b instanceID with
    | .error e => .error e
    | .ok gid =>
      if gid ≠ "" then resolveCreds b gid
      else
        match parsePlan b cat planID rawParams with
        | .error e => .error e
        | .ok dp =>
          match dp.project with
          | none => .error .missingProjectInPlan
          | some proj =>
            if proj.id ≠ "" then resolveCreds b proj.id
            else resolveCreds b ""

/-! ### Validity predicates for the identifier claims -/

/-- A character valid in a canonical instance-size name: uppercase
letters, digits and underscore, as the backend size tiers use (M10,
M40_NVME and so on); in particular no dash and no lowercase letter. -/
def validSizeChar (c : Char) : Bool :=
  (48 ≤ c.toNat && c.toNat ≤ 57) || (65 ≤ c.toNat && c.toNat ≤ 90) || c.toNat = 95

/-- A valid plan-ID input: a provider from the fixed enumeration and a
canonical instance-size name. -/
def ValidPlanInput (providerName : String) (instanceSize : InstanceSize) : Prop :=
  providerName ∈ providerNames ∧ ∀ c ∈ instanceSize.name.data, validSizeChar c = true

/-- Collision-free instance sizes of a provider: every size name is
dash-free after lowercasing, and the lowercased size names are pairwise
distinct. -/
def SizesOK (provider : Provider) : Prop :=
  (∀ kv ∈ provider.instanceSizes, '-' ∉ (lowerStr kv.2.name).data) ∧
    provider.instanceSizes.Pairwise fun a b => lowerStr a.2.name ≠ lowerStr b.2.name

/-- The common stem of every plan identifier. -/
def planStem : String := "aosb-cluster-plan-"

/-- The group-ID suffix of an instance-size plan identifier. -/
def gsfx (g : String) : List Char :=
  if g = "" then [] else '-' :: g.data

/-- The shape every catalog entry of a provider name has: the service ID
generated for the provider, pairwise distinct plan IDs, and every plan ID
carrying the lowercased provider name as its dash-delimited token after
the plan stem. -/
def SvcShape (pn : String) (svc : Service) : Prop :=
  svc.id = serviceIDForProvider pn ∧
    (svc.plans.map fun p => p.id).Nodup ∧
    ∀ pl ∈ svc.plans, ∃ tail, pl.id.data = planStem.data ++ ((lowerStr pn).data ++ '-' :: tail)

/-- Collision-free catalog inputs: the backend returns providers under
their requested names with collision-free instance sizes, the credential
project keys are pairwise distinct, and the dynamic plans rendered for
any fetched provider have pairwise distinct lowercased names. -/
def BrokerInputsOK (b : Broker) : Prop :=
  (∀ n p, b.fetchProvider n = .ok p → p.name = n) ∧
    (∀ n p, b.fetchProvider n = .ok p → SizesOK p) ∧
    (b.credentials.projects.Pairwise fun x y => x.1 ≠ y.1) ∧
    ∀ n p, b.fetchProvider n = .ok p →
      (buildPlansForProviderDynamic b p).Pairwise fun x y => lowerStr x.name ≠ lowerStr y.name

/-- The catalog entries of a successful build paired with the provider
names that produced them. -/
def pairedEntries (b : Broker) : List (String × Service) :=
  providerNames.filterMap fun pn => (svcEntry b pn).map fun svc => (pn, svc)

/-! ### Concrete sample inputs used by counterexamples and witnesses -/

/-- Sample credentials with a single project. -/
def cexCreds : Credentials :=
  { projects := [("gid1", { publicKey := "pk", privateKey := "sk", desc := "alpha" })]
    orgs := [] }

/-- A template whose execution always succeeds with a fixed rendering. -/
def cexTemplate1 : Template :=
  { name := "t1", execute := fun _ => .ok "name: foo" }

/-- A second template with a different rendering that decodes to a plan
with the same name. -/
def cexTemplate2 : Template :=
  { name := "t2", execute := fun _ => .ok "name: foo\ndescription: second" }

/-- A decoder standing for the YAML library on the two renderings above:
both carry the plan name foo, no pinned provider and size M10. -/
def cexDecode : String → Except String DPlan := fun raw =>
  .ok { name := "foo", description := raw, free := none, project := none
        cluster := some { name := "c"
                          providerSettings := some { providerName := "", instanceSizeName := "M10" } } }

/-- A backend that knows one instance size for every provider. -/
def cexFetch : String → Except String Provider := fun n =>
  .ok { name := n, instanceSizes := [("M10", { name := "M10" })] }

/-- A store with no persisted documents. -/
def cexStore : String → Except StoreErr (List (String × PVal)) := fun _ =>
  .error .noDocuments

/-- A DynamicPlans broker whose two templates decode to identically named
plans: the duplicate-plan-ID counterexample. -/
def cexBrokerDyn : Broker :=
  { whitelist := none, credentials := cexCreds, baseURL := "https://example.test"
    mode := .DynamicPlans, templates := [cexTemplate1, cexTemplate2]
    fetchProvider := cexFetch, yamlDecode := cexDecode, store := cexStore }

/-- A MultiGroup broker over the sample credentials with no templates
and no persisted documents. -/
def cexBrokerMG : Broker :=
  { whitelist := none, credentials := cexCreds, baseURL := "base"
    mode := .MultiGroup, templates := []
    fetchProvider := cexFetch, yamlDecode := cexDecode, store := cexStore }

/-- A decoder whose plan carries a non-nil project with empty ID. -/
def cexProjEmptyDecode : String → Except String DPlan := fun raw =>
  .ok { name := "foo", description := raw, free := none
        project := some { id := "", name := "" }, cluster := none }

/-- A catalog holding one dynamic plan that carries a template. -/
def cexTplCat : Catalog :=
  { services := []
    plans := [("p1", { id := "p1", name := "foo", description := "", free := none
                       metadata := some { template := some cexTemplate1, instanceSize := none
                                          groupID := none } })]
    providers := [] }

/-- A DynamicPlans broker whose rendered plan declares an empty project
ID. -/
def cexBrokerDyn10 : Broker :=
  { whitelist := none, credentials := cexCreds, baseURL := "base"
    mode := .DynamicPlans, templates := []
    fetchProvider := cexFetch, yamlDecode := cexProjEmptyDecode, store := cexStore }

/-- A backend for which the GCP fetch fails after a successful AWS
fetch. -/
def cexFetch4 : String → Except String Provider := fun n =>
  if n = "AWS" then .ok { name := "AWS", instanceSizes := [("M10", { name := "M10" })] }
  else .error "gcp down"

/-- A BasicAuth broker whose catalog build aborts at the GCP fetch. -/
def cexB4 : Broker :=
  { whitelist := none, credentials := cexCreds, baseURL := "base"
    mode := .BasicAuth, templates := []
    fetchProvider := cexFetch4, yamlDecode := cexDecode, store := cexStore }

/-- A BasicAuth broker whose catalog build succeeds for every provider. -/
def cexB2 : Broker :=
  { whitelist := none, credentials := cexCreds, baseURL := "base"
    mode := .BasicAuth, templates := []
    fetchProvider := cexFetch, yamlDecode := cexDecode, store := cexStore }

/-- The dynamic broker restricted by a whitelist admitting only AWS with
the plan name foo. -/
def cexB5 : Broker :=
  { whitelist := some [("AWS", ["foo"])], credentials := cexCreds
    baseURL := "https://example.test", mode := .DynamicPlans
    templates := [cexTemplate1, cexTemplate2]
    fetchProvider := cexFetch, yamlDecode := cexDecode, store := cexStore }

/-- A template whose execution always fails. -/
def cexBadTemplate : Template :=
  { name := "bad", execute := fun _ => .error "boom" }

/-- A template rendering a plan pinned to GCP. -/
def cexGcpTemplate : Template :=
  { name := "gcpt", execute := fun _ => .ok "gcp plan" }

/-- A decoder whose plan pins the provider name GCP. -/
def cexDecodeG : String → Except String DPlan := fun raw =>
  .ok { name := "gplan", description := raw, free := none, project := none
        cluster := some { name := "c"
                          providerSettings := some { providerName := "GCP", instanceSizeName := "M10" } } }

/-- A DynamicPlans broker holding only the GCP-pinned template. -/
def cexB7 : Broker :=
  { whitelist := none, credentials := cexCreds, baseURL := "base"
    mode := .DynamicPlans, templates := [cexGcpTemplate]
    fetchProvider := cexFetch, yamlDecode := cexDecodeG, store := cexStore }

/-- The AWS provider with one instance size. -/
def awsProv : Provider := { name := "AWS", instanceSizes := [("M10", { name := "M10" })] }

/-- The GCP provider with one instance size. -/
def gcpProv : Provider := { name := "GCP", instanceSizes := [("M10", { name := "M10" })] }

/-- A backend variant that fails when asked for TENANT and otherwise
behaves like cexFetch4. -/
def cexFetchT : String → Except String Provider := fun n =>
  if n = "TENANT" then .error "never called" else cexFetch4 n

/-! ## Theorems -/

/-! ### Character-level lemmas -/

theorem toNat_ofNat_valid (n : Nat) (h : n < 55296) : (Char.ofNat n).toNat = n := by
  rw [Char.ofNat, dif_pos (Or.inl h : n.isValidChar)]
  rfl

theorem char_eq_of_toNat {a b : Char} (h : a.toNat = b.toNat) : a = b :=
  Char.ext (UInt32.ext h)

theorem lowerChar_toNat (c : Char) :
    (lowerChar c).toNat = if 65 ≤ c.toNat ∧ c.toNat ≤ 90 then c.toNat + 32 else c.toNat := by
  rw [lowerChar]
  split
  · next h => exact toNat_ofNat_valid _ (by omega)
  · rfl

theorem lowerChar_idem (c : Char) : lowerChar (lowerChar c) = lowerChar c := by
  apply char_eq_of_toNat
  rw [lowerChar_toNat (lowerChar c)]
  have ht := lowerChar_toNat c
  rw [if_neg]
  split at ht <;> omega

theorem forbiddenChar_lowerChar {c : Char} (h : forbiddenChar c = false) :
    forbiddenChar (lowerChar c) = false := by
  have ht := lowerChar_toNat c
  simp only [forbiddenChar, Bool.not_eq_false', Bool.or_eq_true, decide_eq_true_eq,
    Bool.and_eq_true, Bool.not_eq_true'] at h ⊢
  split at ht <;> omega

theorem outChar_lowerChar {c : Char} (h : forbiddenChar c = false) :
    outChar (lowerChar c) = true := by
  have ht := lowerChar_toNat c
  simp only [forbiddenChar, Bool.not_eq_false', Bool.or_eq_true, decide_eq_true_eq,
    Bool.and_eq_true, Bool.not_eq_true'] at h
  simp only [outChar, Bool.or_eq_true, decide_eq_true_eq, Bool.and_eq_true]
  split at ht <;> omega

/-! ### Normalizer lemmas -/

/-- Membership in the output of replaceRuns: every character is either an
inserted underscore or an allowed character of the input. -/
theorem mem_replaceRuns {c : Char} :
    ∀ (b : Bool) (l : List Char), c ∈ replaceRuns b l →
      c = '_' ∨ forbiddenChar c = false := by
  intro b l
  induction l generalizing b with
  | nil => intro h; cases h
  | cons d ds ih =>
    intro h
    rw [replaceRuns] at h
    split at h
    · split at h
      · exact ih true h
      · rcases List.mem_cons.mp h with rfl | h2
        · exact Or.inl rfl
        · exact ih true h2
    · next hd =>
      rcases List.mem_cons.mp h with rfl | h2
      · right; simpa using hd
      · exact ih false h2

/-- replaceRuns fixes lists in normalized shape. -/
theorem replaceRuns_fixed :
    ∀ l : List Char, isolatedRuns l = true →
      replaceRuns false l = l ∧ (headAllowed l = true → replaceRuns true l = l) := by
  intro l
  induction l with
  | nil => intro _; exact ⟨rfl, fun _ => rfl⟩
  | cons c cs ih =>
    intro h
    rw [isolatedRuns, Bool.and_eq_true] at h
    obtain ⟨hc, hcs⟩ := h
    obtain ⟨ih1, ih2⟩ := ih hcs
    by_cases hf : forbiddenChar c
    · rw [if_pos hf, Bool.and_eq_true] at hc
      obtain ⟨hu, hh⟩ := hc
      have hu' : c = '_' := by simpa using hu
      constructor
      · rw [replaceRuns, if_pos hf]
        simp [ih2 hh, hu']
      · intro hhead
        rw [headAllowed] at hhead
        rw [hf] at hhead
        simp at hhead
    · constructor
      · rw [replaceRuns, if_neg (by simpa using hf), ih1]
      · intro _
        rw [replaceRuns, if_neg (by simpa using hf), ih1]

/-- The head of a run-replacement started inside a run is never forbidden
after lowercasing. -/
theorem headAllowed_replaceRuns_true (l : List Char) :
    headAllowed ((replaceRuns true l).map lowerChar) = true := by
  induction l with
  | nil => rfl
  | cons c cs ih =>
    rw [replaceRuns]
    by_cases hf : forbiddenChar c
    · rw [if_pos hf]
      simpa using ih
    · rw [if_neg (by simpa using hf)]
      simp only [List.map_cons, headAllowed]
      rw [forbiddenChar_lowerChar (by simpa using hf)]
      rfl

/-- The lowercased output of replaceRuns is in normalized shape. -/
theorem isolatedRuns_replaceRuns :
    ∀ (l : List Char) (b : Bool), isolatedRuns ((replaceRuns b l).map lowerChar) = true := by
  intro l
  induction l with
  | nil => intro b; rfl
  | cons c cs ih =>
    intro b
    rw [replaceRuns]
    by_cases hf : forbiddenChar c
    · rw [if_pos hf]
      cases b with
      | true => simpa using ih true
      | false =>
        simp only [Bool.false_eq_true, ite_false, List.map_cons, isolatedRuns]
        have h1 : lowerChar '_' = '_' := by decide
        rw [h1]
        have h2 : forbiddenChar '_' = true := by decide
        rw [h2]
        simp only [if_pos]
        rw [headAllowed_replaceRuns_true, ih true]
        decide
    · rw [if_neg (by simpa using hf)]
      simp only [List.map_cons, isolatedRuns]
      rw [forbiddenChar_lowerChar (by simpa using hf), ih false]
      simp

theorem normalizeID_data (id : String) :
    (normalizeID id).data = (replaceRuns false id.data).map lowerChar := rfl

/-- C9: normalize is idempotent and its output contains only lowercase
letters, digits, dash and underscore. -/
theorem normalizeID_idem_charset (x : String) :
    normalizeID (normalizeID x) = normalizeID x ∧
      ∀ c, c ∈ (normalizeID x).data → outChar c = true := by
  constructor
  · apply String.ext
    rw [normalizeID_data, normalizeID_data]
    have hfix := (replaceRuns_fixed _ (isolatedRuns_replaceRuns x.data false)).1
    rw [hfix, List.map_map]
    apply List.map_congr_left
    intro c _
    exact lowerChar_idem c
  · intro c hc
    rw [normalizeID_data] at hc
    rcases List.mem_map.mp hc with ⟨d, hd, rfl⟩
    rcases mem_replaceRuns false x.data hd with rfl | hall
    · decide
    · exact outChar_lowerChar hall

/-- Witness for C9 at a concrete input and character. -/
theorem normalizeID_idem_charset_witness :
    normalizeID (normalizeID "Ab c!") = normalizeID "Ab c!" ∧ outChar 'a' = true :=
  ⟨(normalizeID_idem_charset "Ab c!").1,
    (normalizeID_idem_charset "Ab c!").2 'a' (by decide)⟩

/-! ### Separation lemmas for dash-delimited identifiers -/

/-- Two dash-free segments followed by a dash-separated tail can be
recovered from the concatenation. -/
theorem sep_inj :
    ∀ (as bs xs ys : List Char), '-' ∉ as → '-' ∉ bs →
      as ++ '-' :: xs = bs ++ '-' :: ys → as = bs ∧ xs = ys := by
  intro as
  induction as with
  | nil =>
    intro bs xs ys _ hb h
    cases bs with
    | nil => simpa using h
    | cons c bs2 =>
      simp only [List.nil_append, List.cons_append, List.cons.injEq] at h
      exact absurd (h.1 ▸ List.mem_cons_self c bs2) hb
  | cons a as2 ih =>
    intro bs xs ys ha hb h
    cases bs with
    | nil =>
      simp only [List.nil_append, List.cons_append, List.cons.injEq] at h
      exact absurd (h.1 ▸ List.mem_cons_self a as2) ha
    | cons c bs2 =>
      simp only [List.cons_append, List.cons.injEq] at h
      obtain ⟨rfl, h2⟩ := h
      have ha2 : '-' ∉ as2 := fun hm => ha (List.mem_cons_of_mem _ hm)
      have hb2 : '-' ∉ bs2 := fun hm => hb (List.mem_cons_of_mem _ hm)
      obtain ⟨rfl, hxy⟩ := ih bs2 xs ys ha2 hb2 h2
      exact ⟨rfl, hxy⟩

/-- A dash-free segment followed by an optional dash-prefixed group
suffix can be recovered from the concatenation. -/
theorem tail_inj (as bs : List Char) (g1 g2 : String)
    (ha : '-' ∉ as) (hb : '-' ∉ bs) (h : as ++ gsfx g1 = bs ++ gsfx g2) :
    as = bs ∧ g1 = g2 := by
  by_cases hg1 : g1 = "" <;> by_cases hg2 : g2 = ""
  · rw [gsfx, if_pos hg1, gsfx, if_pos hg2, List.append_nil, List.append_nil] at h
    exact ⟨h, hg1.trans hg2.symm⟩
  · rw [gsfx, if_pos hg1, gsfx, if_neg hg2, List.append_nil] at h
    exact absurd (h ▸ List.mem_append.mpr (Or.inr (List.mem_cons_self _ _))) ha
  · rw [gsfx, if_neg hg1, gsfx, if_pos hg2, List.append_nil] at h
    exact absurd (h.symm ▸ List.mem_append.mpr (Or.inr (List.mem_cons_self _ _))) hb
  · rw [gsfx, if_neg hg1, gsfx, if_neg hg2] at h
    obtain ⟨h1, h2⟩ := sep_inj as bs g1.data g2.data ha hb h
    exact ⟨h1, String.ext h2⟩

/-! ### Decomposition of the generated identifiers -/

theorem stem_eq : planStem.data = idPrefix.data ++ "-plan-".data := by decide

theorem planIDForInstanceSize_data (p : String) (s : InstanceSize) (g : String) :
    (planIDForInstanceSize p s g).data =
      planStem.data ++ ((lowerStr p).data ++ '-' :: ((lowerStr s.name).data ++ gsfx g)) := by
  rw [stem_eq, gsfx]
  by_cases hg : g = ""
  · simp only [planIDForInstanceSize, if_pos hg, String.data_append, List.append_assoc,
      List.append_nil]
    rfl
  · simp only [planIDForInstanceSize, if_neg hg, String.data_append, List.append_assoc]
    rfl

theorem planIDForDynamicPlan_data (p : String) (n : String) :
    (planIDForDynamicPlan p n).data =
      planStem.data ++ ((lowerStr p).data ++ '-' :: (lowerStr n).data) := by
  rw [stem_eq]
  simp only [planIDForDynamicPlan, String.data_append, List.append_assoc]
  rfl

/-! ### Lowercasing is injective on canonical inputs -/

theorem lowerChar_inj_valid {a b : Char} (ha : validSizeChar a = true)
    (hb : validSizeChar b = true) (h : lowerChar a = lowerChar b) : a = b := by
  have hta := lowerChar_toNat a
  have htb := lowerChar_toNat b
  have h2 : (lowerChar a).toNat = (lowerChar b).toNat := by rw [h]
  simp only [validSizeChar, Bool.or_eq_true, Bool.and_eq_true, decide_eq_true_eq] at ha hb
  apply char_eq_of_toNat
  split at hta <;> split at htb <;> omega

theorem map_lowerChar_inj_valid :
    ∀ (l1 l2 : List Char), (∀ c ∈ l1, validSizeChar c = true) →
      (∀ c ∈ l2, validSizeChar c = true) → l1.map lowerChar = l2.map lowerChar → l1 = l2 := by
  intro l1
  induction l1 with
  | nil =>
    intro l2 _ _ h
    cases l2 with
    | nil => rfl
    | cons c cs => simp at h
  | cons a as ih =>
    intro l2 h1 h2 h
    cases l2 with
    | nil => simp at h
    | cons c cs =>
      simp only [List.map_cons, List.cons.injEq] at h
      have hhead := lowerChar_inj_valid (h1 a (List.mem_cons_self a as))
        (h2 c (List.mem_cons_self c cs)) h.1
      have htail := ih cs (fun x hx => h1 x (List.mem_cons_of_mem _ hx))
        (fun x hx => h2 x (List.mem_cons_of_mem _ hx)) h.2
      rw [hhead, htail]

theorem lower_valid_noDash {l : List Char} (h : ∀ c ∈ l, validSizeChar c = true) :
    '-' ∉ l.map lowerChar := by
  intro hmem
  rcases List.mem_map.mp hmem with ⟨c, hc, he⟩
  have hv := h c hc
  have ht := lowerChar_toNat c
  have h45 : (lowerChar c).toNat = 45 := by rw [he]; rfl
  simp only [validSizeChar, Bool.or_eq_true, Bool.and_eq_true, decide_eq_true_eq] at hv
  split at ht <;> omega

theorem provider_lower_inj :
    ∀ p1 ∈ providerNames, ∀ p2 ∈ providerNames,
      (lowerStr p1).data = (lowerStr p2).data → p1 = p2 := by decide

theorem provider_lower_noDash : ∀ p ∈ providerNames, '-' ∉ (lowerStr p).data := by decide

/-- C1: planIDForInstanceSize is injective on valid inputs — for
canonical provider/size/tenant triples, two generated plan IDs coincide
exactly when the triples coincide. -/
theorem planIDForInstanceSize_injective
    (p1 p2 : String) (s1 s2 : InstanceSize) (g1 g2 : String)
    (h1 : ValidPlanInput p1 s1) (h2 : ValidPlanInput p2 s2) :
    planIDForInstanceSize p1 s1 g1 = planIDForInstanceSize p2 s2 g2 ↔
      p1 = p2 ∧ s1 = s2 ∧ g1 = g2 := by
  constructor
  · intro h
    have hd : (planIDForInstanceSize p1 s1 g1).data = (planIDForInstanceSize p2 s2 g2).data := by
      rw [h]
    rw [planIDForInstanceSize_data, planIDForInstanceSize_data] at hd
    have hd2 := List.append_cancel_left hd
    obtain ⟨hp, hrest⟩ := sep_inj _ _ _ _ (provider_lower_noDash p1 h1.1)
      (provider_lower_noDash p2 h2.1) hd2
    have hpeq : p1 = p2 := provider_lower_inj p1 h1.1 p2 h2.1 hp
    obtain ⟨hs, hg⟩ := tail_inj _ _ g1 g2 (lower_valid_noDash h1.2) (lower_valid_noDash h2.2) hrest
    have hname : s1.name = s2.name :=
      String.ext (map_lowerChar_inj_valid s1.name.data s2.name.data h1.2 h2.2 hs)
    obtain ⟨n1⟩ := s1
    obtain ⟨n2⟩ := s2
    exact ⟨hpeq, by simpa using hname, hg⟩
  · rintro ⟨rfl, rfl, rfl⟩
    rfl

/-- Witness for C1 at concrete triples. -/
theorem planIDForInstanceSize_injective_witness :
    ValidPlanInput "AWS" ⟨"M10"⟩ ∧ ValidPlanInput "GCP" ⟨"M10"⟩ ∧
      (planIDForInstanceSize "AWS" ⟨"M10"⟩ "" = planIDForInstanceSize "GCP" ⟨"M10"⟩ "" ↔
        "AWS" = "GCP" ∧ (⟨"M10"⟩ : InstanceSize) = ⟨"M10"⟩ ∧ ("" : String) = "") :=
  ⟨by constructor <;> decide,
   by constructor <;> decide,
   planIDForInstanceSize_injective "AWS" "GCP" ⟨"M10"⟩ ⟨"M10"⟩ "" ""
     ⟨by decide, by decide⟩ ⟨by decide, by decide⟩⟩

/-! ### Tenant resolution (C3, C10) -/

/-- C3: in MultiGroup and DynamicPlans modes, an instance whose persisted
metadata records a tenant resolves to that tenant for any request
parameters, going straight to the credential lookup; with no persisted
metadata, a MultiGroup request whose parameters declare no tenant fails
with the missing-tenant-reference fault, and a DynamicPlans request whose
rendered plan declares no project fails with the missing-project
fault. -/
theorem tenant_resolution_metadata_first
    (b : Broker) (cat : Catalog) (cc : Option AtlasClient) (cg : Option String)
    (iid pid : String) (rp : Option TemplateCtx)
    (hmode : b.mode = .MultiGroup ∨ b.mode = .DynamicPlans) :
    (∀ doc gid, b.store iid = .ok doc → doc.lookup "groupID" = some (.str gid) → gid ≠ "" →
        getClient b cat cc cg iid pid rp = resolveCreds b gid) ∧
    (b.store iid = .error .noDocuments →
      (b.mode = .MultiGroup → (rp.getD (DefaultCtx b.credentials)).project.id = "" →
          getClient b cat cc cg iid pid rp = .error .projectIDNotFoundInParams) ∧
      (b.mode = .DynamicPlans → ∀ dp, parsePlan b cat pid rp = .ok dp → dp.project = none →
          getClient b cat cc cg iid pid rp = .error .missingProjectInPlan)) := by
  have hgid0 : b.store iid = .error .noDocuments → getGroupIDByInstanceID b iid = .ok "" := by
    intro hstore
    simp only [getGroupIDByInstanceID, hstore]
  constructor
  · intro doc gid hdoc hlook hne
    have hgid : getGroupIDByInstanceID b iid = .ok gid := by
      simp only [getGroupIDByInstanceID, hdoc, hlook]
    rcases hmode with hm | hm
    · simp only [getClient, hm, hgid, if_pos hne]
    · simp only [getClient, hm, hgid, if_pos hne]
  · intro hstore
    constructor
    · intro hm hparams
      simp only [getClient, hm, hgid0 hstore]
      rw [if_neg (by simp), if_pos hparams]
    · intro hm dp hparse hproj
      simp only [getClient, hm, hgid0 hstore, hparse, hproj]
      rw [if_neg (by simp)]

/-- Witness for C3: the concrete MultiGroup broker with no persisted
metadata and parameter-free request fails with the
missing-tenant-reference fault. -/
theorem tenant_resolution_metadata_first_witness :
    getClient cexBrokerMG newCatalog none none "i1" "p1" none =
      .error .projectIDNotFoundInParams :=
  ((tenant_resolution_metadata_first cexBrokerMG newCatalog none none "i1" "p1" none
      (Or.inl rfl)).2 rfl).1 rfl rfl

/-- C10: in DynamicPlans mode, a new instance whose rendered plan has a
non-nil project with empty ID raises no missing-project fault: resolution
proceeds with the empty tenant ID and fails at the credential lookup for
project ID empty, provided no credential entry is keyed by the empty
string. -/
theorem dynamic_empty_project_id_resolution
    (b : Broker) (cat : Catalog) (cc : Option AtlasClient) (cg : Option String)
    (iid pid : String) (rp : Option TemplateCtx) (dp : DPlan) (pname : String)
    (hmode : b.mode = .DynamicPlans)
    (hstore : b.store iid = .error .noDocuments)
    (hparse : parsePlan b cat pid rp = .ok dp)
    (hproj : dp.project = some { id := "", name := pname })
    (hcred : b.credentials.projects.lookup "" = none) :
    getClient b cat cc cg iid pid rp = .error (.credentialsNotFound "") := by
  have hgid0 : getGroupIDByInstanceID b iid = .ok "" := by
    simp only [getGroupIDByInstanceID, hstore]
  simp only [getClient, hmode, hgid0, hparse, hproj]
  rw [if_neg (by simp), if_neg (by simp)]
  rw [resolveCreds, hcred]

/-- Witness for C10 at the concrete DynamicPlans broker. -/
theorem dynamic_empty_project_id_resolution_witness :
    getClient cexBrokerDyn10 cexTplCat none none "i1" "p1" none =
      .error (.credentialsNotFound "") :=
  dynamic_empty_project_id_resolution cexBrokerDyn10 cexTplCat none none "i1" "p1" none
    { name := "foo", description := "name: foo", free := none
      project := some { id := "", name := "" }, cluster := none } ""
    rfl rfl rfl rfl rfl

/-! ### Build-loop characterization -/

theorem buildStep_services (b : Broker) (cat : Catalog) (pn : String) (cat2 : Catalog)
    (h : buildStep b cat pn = .ok cat2) :
    cat2.services = cat.services ++ (svcEntry b pn).toList := by
  rw [buildStep] at h
  by_cases had : admitted b pn
  · rw [if_pos had] at h
    cases hraw : rawServiceFor b pn with
    | error e => rw [hraw] at h; cases h
    | ok sp =>
      obtain ⟨svc0, provOpt⟩ := sp
      rw [hraw] at h
      have hentry : svcEntry b pn = some { svc0 with plans := wlFilterFor b pn svc0.plans } := by
        rw [svcEntry, if_pos had, finalServiceFor, hraw]
        rfl
      rw [hentry]
      cases provOpt with
      | none => simp only at h; injection h with h2; rw [← h2]; rfl
      | some provider => simp only at h; injection h with h2; rw [← h2]; rfl
  · rw [if_neg had] at h
    injection h with h2
    rw [← h2, svcEntry, if_neg had]
    simp

theorem buildStep_ok_final (b : Broker) (cat : Catalog) (pn : String) (cat2 : Catalog)
    (had : admitted b pn = true) (h : buildStep b cat pn = .ok cat2) :
    ∃ svc, finalServiceFor b pn = .ok svc := by
  rw [buildStep, if_pos had] at h
  cases hraw : rawServiceFor b pn with
  | error e => rw [hraw] at h; cases h
  | ok sp =>
    exact ⟨{ sp.1 with plans := wlFilterFor b pn sp.1.plans }, by rw [finalServiceFor, hraw]; rfl⟩

theorem goBuild_success (b : Broker) :
    ∀ (ns : List String) (cat0 cat : Catalog), goBuild b ns cat0 = (cat, none) →
      cat.services = cat0.services ++ ns.filterMap (svcEntry b) ∧
        ∀ pn ∈ ns, admitted b pn = true → ∃ svc, finalServiceFor b pn = .ok svc := by
  intro ns
  induction ns with
  | nil =>
    intro cat0 cat h
    rw [goBuild] at h
    injection h with h1 _
    rw [← h1]
    exact ⟨by simp, by simp⟩
  | cons pn rest ih =>
    intro cat0 cat h
    rw [goBuild] at h
    cases hstep : buildStep b cat0 pn with
    | error e =>
      rw [hstep] at h
      injection h with _ h2
      cases h2
    | ok cat1 =>
      rw [hstep] at h
      obtain ⟨hs, hall⟩ := ih cat1 cat h
      have h1 := buildStep_services b cat0 pn cat1 hstep
      constructor
      · rw [hs, h1, List.filterMap_cons]
        cases he : svcEntry b pn <;> simp
      · intro q hq hadq
        rcases List.mem_cons.mp hq with rfl | hq2
        · exact buildStep_ok_final b cat0 q cat1 hadq hstep
        · exact hall q hq2 hadq

theorem buildCatalog_success (b : Broker) (cat : Catalog)
    (h : buildCatalogGo b = (cat, none)) :
    cat.services = providerNames.filterMap (svcEntry b) ∧
      ∀ pn ∈ providerNames, admitted b pn = true → ∃ svc, finalServiceFor b pn = .ok svc := by
  obtain ⟨hs, hall⟩ := goBuild_success b providerNames newCatalog cat h
  exact ⟨by simpa using hs, hall⟩

/-- A generic congruence for the build loop: two brokers whose build
steps agree build identical catalogs. -/
theorem goBuild_congr (b1 b2 : Broker)
    (hstep : ∀ cat pn, buildStep b1 cat pn = buildStep b2 cat pn) :
    ∀ (ns : List String) (cat : Catalog), goBuild b1 ns cat = goBuild b2 ns cat := by
  intro ns
  induction ns with
  | nil => intro cat; rfl
  | cons pn rest ih =>
    intro cat
    rw [goBuild, goBuild, hstep cat pn]
    cases buildStep b2 cat pn with
    | error e => rfl
    | ok cat2 => exact ih cat2

/-! ### C4: failed fetch aborts the build, but the partial catalog leaks -/

/-- C4 amended: a failed provider fetch aborts catalog construction with
the propagated error, and the Services call that triggered the build
returns that error and no catalog; however, buildCatalog has already
stored the partially built catalog, so a subsequent Services call returns
the partial catalog without error.  (In the production constructor the
process terminates on a build failure, so the partial catalog is never
served there.) -/
theorem build_failure_propagates (b : Broker) (c : Catalog) (e : BuildErr)
    (h : buildCatalogGo b = (c, some e)) :
    Services b none = (some c, .error e) ∧
      Services b (some c) = (some c, .ok c.services) := by
  constructor
  · simp only [Services, h]
  · rfl

/-- Witness for the amended C4 at the concrete failing broker. -/
theorem build_failure_propagates_witness :
    Services cexB4 none = (some (buildCatalogGo cexB4).1, .error (.fetch "gcp down")) ∧
      Services cexB4 (some (buildCatalogGo cexB4).1) =
        (some (buildCatalogGo cexB4).1, .ok (buildCatalogGo cexB4).1.services) :=
  build_failure_propagates cexB4 (buildCatalogGo cexB4).1 (.fetch "gcp down") rfl

/-- Counterexample to C4 as stated: after the failing first query, a
second catalog query observes a catalog containing exactly the one
provider processed before the failure. -/
theorem partial_catalog_observed_cex :
    (Services cexB4 none).2 = .error (.fetch "gcp down") ∧
      ((Services cexB4 (Services cexB4 none).1).2.toOption.map fun l =>
          l.map fun s => s.id) = some ["aosb-cluster-service-aws"] := by
  exact ⟨rfl, rfl⟩

/-! ### Plan-identifier shape and distinctness per builder -/

theorem nodup_map_pairwise {α β : Type} {f : α → β} {l : List α}
    (h : List.Pairwise (fun a b => f a ≠ f b) l) : (l.map f).Nodup :=
  List.pairwise_map.mpr h

theorem planID_inst_cancel {pname : String} {s1 s2 : InstanceSize} {g1 g2 : String}
    (h1 : '-' ∉ (lowerStr s1.name).data) (h2 : '-' ∉ (lowerStr s2.name).data)
    (h : planIDForInstanceSize pname s1 g1 = planIDForInstanceSize pname s2 g2) :
    lowerStr s1.name = lowerStr s2.name ∧ g1 = g2 := by
  have hd := congrArg String.data h
  rw [planIDForInstanceSize_data, planIDForInstanceSize_data] at hd
  have hd2 := List.append_cancel_left hd
  have hd3 := List.append_cancel_left hd2
  injection hd3 with _ hd4
  obtain ⟨ha, hb⟩ := tail_inj _ _ g1 g2 h1 h2 hd4
  exact ⟨String.ext ha, hb⟩

theorem planID_dyn_cancel {pname n1 n2 : String}
    (h : planIDForDynamicPlan pname n1 = planIDForDynamicPlan pname n2) :
    lowerStr n1 = lowerStr n2 := by
  have hd := congrArg String.data h
  rw [planIDForDynamicPlan_data, planIDForDynamicPlan_data] at hd
  have hd2 := List.append_cancel_left hd
  have hd3 := List.append_cancel_left hd2
  injection hd3 with _ hd4
  exact String.ext hd4

theorem static_plan_id (provider : Provider) (pl : ServicePlan)
    (h : pl ∈ buildPlansForProviderStatic provider) :
    ∃ kv ∈ provider.instanceSizes, pl.id = planIDForInstanceSize provider.name kv.2 "" := by
  rcases List.mem_map.mp h with ⟨kv, hkv, rfl⟩
  exact ⟨kv, hkv, rfl⟩

theorem static_nodup (provider : Provider) (hsz : SizesOK provider) :
    ((buildPlansForProviderStatic provider).map fun p => p.id).Nodup := by
  rw [buildPlansForProviderStatic, List.map_map]
  apply nodup_map_pairwise
  refine List.Pairwise.imp_of_mem ?_ hsz.2
  intro kv1 kv2 h1 h2 hne heq
  have heq2 : planIDForInstanceSize provider.name kv1.2 "" =
      planIDForInstanceSize provider.name kv2.2 "" := heq
  exact hne (planID_inst_cancel (hsz.1 kv1 h1) (hsz.1 kv2 h2) heq2).1

theorem auto_plan_id (b : Broker) (provider : Provider) (pl : ServicePlan)
    (h : pl ∈ buildPlansForProviderAuto b provider) :
    ∃ kv ∈ provider.instanceSizes, ∃ en ∈ b.credentials.projects,
      pl.id = planIDForInstanceSize provider.name kv.2 en.1 := by
  rcases List.mem_flatMap.mp h with ⟨kv, hkv, hmem⟩
  rcases List.mem_map.mp hmem with ⟨en, hen, rfl⟩
  exact ⟨kv, hkv, en, hen, rfl⟩

theorem auto_nodup (b : Broker) (provider : Provider) (hsz : SizesOK provider)
    (hcred : b.credentials.projects.Pairwise fun x y => x.1 ≠ y.1) :
    ((buildPlansForProviderAuto b provider).map fun p => p.id).Nodup := by
  rw [buildPlansForProviderAuto, List.map_flatMap]
  rw [List.flatMap_def, List.nodup_flatten]
  constructor
  · intro l hl
    rcases List.mem_map.mp hl with ⟨kv, hkv, rfl⟩
    rw [List.map_map]
    apply nodup_map_pairwise
    refine List.Pairwise.imp ?_ hcred
    intro en1 en2 hne heq
    have heq2 : planIDForInstanceSize provider.name kv.2 en1.1 =
        planIDForInstanceSize provider.name kv.2 en2.1 := heq
    exact hne (planID_inst_cancel (hsz.1 kv hkv) (hsz.1 kv hkv) heq2).2
  · rw [List.pairwise_map]
    refine List.Pairwise.imp_of_mem ?_ hsz.2
    intro kv1 kv2 h1 h2 hne
    intro x hx1 hx2
    rw [List.map_map] at hx1 hx2
    rcases List.mem_map.mp hx1 with ⟨en1, hen1, rfl⟩
    rcases List.mem_map.mp hx2 with ⟨en2, hen2, heq⟩
    have heq2 : planIDForInstanceSize provider.name kv2.2 en2.1 =
        planIDForInstanceSize provider.name kv1.2 en1.1 := heq
    exact hne (planID_inst_cancel (hsz.1 kv2 h2) (hsz.1 kv1 h1) heq2).1.symm

theorem dyn_plan_shape (b : Broker) (provider : Provider) (pl : ServicePlan)
    (h : pl ∈ buildPlansForProviderDynamic b provider) :
    pl.id = planIDForDynamicPlan provider.name pl.name := by
  rcases List.mem_filterMap.mp h with ⟨t, _, hsome⟩
  rw [dynPlanForTemplate] at hsome
  repeat' split at hsome
  all_goals cases hsome
  all_goals rfl

theorem dyn_nodup (b : Broker) (provider : Provider)
    (hnames : (buildPlansForProviderDynamic b provider).Pairwise
      fun x y => lowerStr x.name ≠ lowerStr y.name) :
    ((buildPlansForProviderDynamic b provider).map fun p => p.id).Nodup := by
  apply nodup_map_pairwise
  refine List.Pairwise.imp_of_mem ?_ hnames
  intro pl1 pl2 h1 h2 hne heq
  have heq2 : pl1.id = pl2.id := heq
  rw [dyn_plan_shape b provider pl1 h1, dyn_plan_shape b provider pl2 h2] at heq2
  exact hne (planID_dyn_cancel heq2)

theorem shared_shape : SvcShape "TENANT" sharedService := by
  refine ⟨by decide, by decide, ?_⟩
  intro pl hpl
  rcases List.mem_cons.mp hpl with rfl | hpl2
  · exact ⟨"m2".data, by decide⟩
  rcases List.mem_cons.mp hpl2 with rfl | hpl3
  · exact ⟨"m5".data, by decide⟩
  cases hpl3

theorem plans_token (b : Broker) (provider : Provider) (plans : List ServicePlan)
    (hbp : buildPlansForProvider b provider = some plans) :
    ∀ pl ∈ plans, ∃ tail,
      pl.id.data = planStem.data ++ ((lowerStr provider.name).data ++ '-' :: tail) := by
  rw [buildPlansForProvider] at hbp
  cases hm : b.mode <;> rw [hm] at hbp
  case BasicAuth =>
    injection hbp with h3
    rw [← h3]
    intro pl hpl
    rcases static_plan_id provider pl hpl with ⟨kv, _, hid⟩
    exact ⟨(lowerStr kv.2.name).data ++ gsfx "", by rw [hid, planIDForInstanceSize_data]⟩
  case MultiGroup => cases hbp
  case MultiGroupAutoPlans =>
    injection hbp with h3
    rw [← h3]
    intro pl hpl
    rcases auto_plan_id b provider pl hpl with ⟨kv, _, en, _, hid⟩
    exact ⟨(lowerStr kv.2.name).data ++ gsfx en.1, by rw [hid, planIDForInstanceSize_data]⟩
  case DynamicPlans =>
    injection hbp with h3
    rw [← h3]
    intro pl hpl
    exact ⟨(lowerStr pl.name).data,
      by rw [dyn_plan_shape b provider pl hpl, planIDForDynamicPlan_data]⟩

theorem plans_nodup (b : Broker) (provider : Provider) (plans : List ServicePlan)
    (hsz : SizesOK provider)
    (hcred : b.credentials.projects.Pairwise fun x y => x.1 ≠ y.1)
    (hdyn : (buildPlansForProviderDynamic b provider).Pairwise
      fun x y => lowerStr x.name ≠ lowerStr y.name)
    (hbp : buildPlansForProvider b provider = some plans) :
    (plans.map fun p => p.id).Nodup := by
  rw [buildPlansForProvider] at hbp
  cases hm : b.mode <;> rw [hm] at hbp
  case BasicAuth =>
    injection hbp with h3
    rw [← h3]
    exact static_nodup provider hsz
  case MultiGroup => cases hbp
  case MultiGroupAutoPlans =>
    injection hbp with h3
    rw [← h3]
    exact auto_nodup b provider hsz hcred
  case DynamicPlans =>
    injection hbp with h3
    rw [← h3]
    exact dyn_nodup b provider hdyn

theorem rawService_shape (b : Broker) (hin : BrokerInputsOK b) (pn : String) :
    ∀ sp, rawServiceFor b pn = .ok sp → SvcShape pn sp.1 := by
  intro sp hraw
  rw [rawServiceFor] at hraw
  by_cases ht : pn = "TENANT"
  · rw [if_pos ht] at hraw
    injection hraw with h2
    rw [← h2]
    rw [ht]
    exact shared_shape
  · rw [if_neg ht] at hraw
    cases hf : b.fetchProvider pn with
    | error e => rw [hf] at hraw; cases hraw
    | ok provider =>
      simp only [hf] at hraw
      cases hbp : buildPlansForProvider b provider with
      | none => simp only [hbp] at hraw; cases hraw
      | some plans =>
        simp only [hbp] at hraw
        injection hraw with h2
        rw [← h2]
        have hname := hin.1 pn provider hf
        refine ⟨?_, ?_, ?_⟩
        · show serviceIDForProvider provider.name = serviceIDForProvider pn
          rw [hname]
        · exact plans_nodup b provider plans (hin.2.1 pn provider hf) hin.2.2.1
            (hin.2.2.2 pn provider hf) hbp
        · intro pl hpl
          rcases plans_token b provider plans hbp pl hpl with ⟨tail, htail⟩
          rw [hname] at htail
          exact ⟨tail, htail⟩

theorem svcEntry_shape (b : Broker) (hin : BrokerInputsOK b) (pn : String) :
    ∀ svc, svcEntry b pn = some svc → SvcShape pn svc := by
  intro svc h
  rw [svcEntry] at h
  by_cases had : admitted b pn
  · rw [if_pos had] at h
    cases hfin : finalServiceFor b pn with
    | error e => rw [hfin] at h; cases h
    | ok svc2 =>
      rw [hfin] at h
      injection h with h2
      rw [finalServiceFor] at hfin
      cases hraw : rawServiceFor b pn with
      | error e => rw [hraw] at hfin; cases hfin
      | ok sp =>
        rw [hraw] at hfin
        injection hfin with h3
        have hshape := rawService_shape b hin pn sp hraw
        rw [← h2, ← h3]
        refine ⟨hshape.1, ?_, ?_⟩
        · have hsub : ((wlFilterFor b pn sp.1.plans).map fun p => p.id).Sublist
              ((sp.1.plans).map fun p => p.id) := by
            apply List.Sublist.map
            rw [wlFilterFor]
            cases b.whitelist with
            | none => exact List.Sublist.refl _
            | some wl => exact List.filter_sublist _
          exact hsub.nodup hshape.2.1
        · intro pl hpl
          apply hshape.2.2
          revert hpl
          show pl ∈ wlFilterFor b pn sp.1.plans → pl ∈ sp.1.plans
          rw [wlFilterFor]
          cases b.whitelist with
          | none => exact id
          | some wl => exact fun hm => (List.mem_filter.mp hm).1
  · rw [if_neg had] at h
    cases h

/-! ### Global uniqueness of catalog identifiers (C2) -/

theorem filterMap_map_sublist {α β γ : Type} (f : α → Option β) (g : β → γ) (h : α → γ)
    (H : ∀ a bb, f a = some bb → g bb = h a) :
    ∀ l : List α, ((l.filterMap f).map g).Sublist (l.map h) := by
  intro l
  induction l with
  | nil => simp
  | cons a l ih =>
    rw [List.filterMap_cons]
    cases hfa : f a with
    | none =>
      simp only [List.map_cons]
      exact ih.cons (h a)
    | some bb =>
      simp only [List.map_cons]
      rw [H a bb hfa]
      exact ih.cons₂ (h a)

theorem filterMap_pair_snd {α β : Type} (f : α → Option β) :
    ∀ l : List α,
      ((l.filterMap fun a => (f a).map fun bb => (a, bb)).map Prod.snd) = l.filterMap f := by
  intro l
  induction l with
  | nil => rfl
  | cons a l ih =>
    rw [List.filterMap_cons, List.filterMap_cons]
    cases hfa : f a with
    | none => simpa using ih
    | some bb => simpa using ih

theorem filterMap_pair_fst_sublist {α β : Type} (f : α → Option β) :
    ∀ l : List α,
      ((l.filterMap fun a => (f a).map fun bb => (a, bb)).map Prod.fst).Sublist l := by
  intro l
  induction l with
  | nil => simp
  | cons a l ih =>
    rw [List.filterMap_cons]
    cases hfa : f a with
    | none => exact ih.cons a
    | some bb => simpa using ih.cons₂ a

theorem mem_filterMap_pair {α β : Type} (f : α → Option β) (l : List α) (pr : α × β)
    (h : pr ∈ l.filterMap fun a => (f a).map fun bb => (a, bb)) :
    pr.1 ∈ l ∧ f pr.1 = some pr.2 := by
  rcases List.mem_filterMap.mp h with ⟨a, ha, hsome⟩
  cases hfa : f a with
  | none => rw [hfa] at hsome; cases hsome
  | some bb =>
    rw [hfa] at hsome
    injection hsome with h2
    rw [← h2]
    exact ⟨ha, hfa⟩

theorem providerNames_serviceIDs_nodup : (providerNames.map serviceIDForProvider).Nodup := by
  decide

theorem providers_tok_pairwise :
    providerNames.Pairwise fun x y => (lowerStr x).data ≠ (lowerStr y).data := by
  have h : (providerNames.map fun p => (lowerStr p).data).Nodup := by decide
  exact List.pairwise_map.mp h

/-- C2 amended: after a successful catalog build from collision-free
inputs (backend providers named as requested, dash-free and pairwise
lower-distinct instance-size names, pairwise distinct credential keys,
and pairwise lower-distinct dynamic plan names per provider), every
service identifier and every plan identifier in the catalog is globally
unique. -/
theorem catalog_ids_unique (b : Broker) (cat : Catalog)
    (hin : BrokerInputsOK b) (h : buildCatalogGo b = (cat, none)) :
    (cat.services.map fun s => s.id).Nodup ∧ (allPlanIDs cat).Nodup := by
  obtain ⟨hs, -⟩ := buildCatalog_success b cat h
  constructor
  · rw [hs]
    have hsub := filterMap_map_sublist (svcEntry b) (fun s => s.id) serviceIDForProvider
      (fun pn svc hsvc => (svcEntry_shape b hin pn svc hsvc).1) providerNames
    exact hsub.nodup providerNames_serviceIDs_nodup
  · have hL : (pairedEntries b).map Prod.snd = providerNames.filterMap (svcEntry b) :=
      filterMap_pair_snd (svcEntry b) providerNames
    rw [allPlanIDs, hs, ← hL, List.map_map]
    rw [List.nodup_flatten]
    constructor
    · intro l hl
      rcases List.mem_map.mp hl with ⟨pr, hpr, rfl⟩
      obtain ⟨hmem, hentry⟩ := mem_filterMap_pair (svcEntry b) providerNames pr hpr
      exact (svcEntry_shape b hin pr.1 pr.2 hentry).2.1
    · rw [List.pairwise_map]
      have hfst : ((pairedEntries b).map Prod.fst).Sublist providerNames :=
        filterMap_pair_fst_sublist (svcEntry b) providerNames
      have htokfst := List.Pairwise.sublist hfst providers_tok_pairwise
      have htok := List.pairwise_map.mp htokfst
      refine List.Pairwise.imp_of_mem ?_ htok
      intro pr1 pr2 hm1 hm2 hne
      intro x hx1 hx2
      obtain ⟨hmem1, hent1⟩ := mem_filterMap_pair (svcEntry b) providerNames pr1 hm1
      obtain ⟨hmem2, hent2⟩ := mem_filterMap_pair (svcEntry b) providerNames pr2 hm2
      have hsh1 := svcEntry_shape b hin pr1.1 pr1.2 hent1
      have hsh2 := svcEntry_shape b hin pr2.1 pr2.2 hent2
      rcases List.mem_map.mp hx1 with ⟨pl1, hpl1, rfl⟩
      rcases List.mem_map.mp hx2 with ⟨pl2, hpl2, hid⟩
      rcases hsh1.2.2 pl1 hpl1 with ⟨t1, ht1⟩
      rcases hsh2.2.2 pl2 hpl2 with ⟨t2, ht2⟩
      have hd : pl1.id.data = pl2.id.data := by rw [hid]
      rw [ht1, ht2] at hd
      have hd2 := List.append_cancel_left hd
      obtain ⟨he, -⟩ := sep_inj _ _ _ _ (provider_lower_noDash pr1.1 hmem1)
        (provider_lower_noDash pr2.1 hmem2) hd2
      exact hne he

/-- Counterexample to C2 as stated: two dynamic templates decoding to
identically named plans build successfully but give the catalog duplicate
plan identifiers. -/
theorem duplicate_dynamic_plan_ids_cex :
    (buildCatalogGo cexBrokerDyn).2 = none ∧
      ¬ (allPlanIDs (buildCatalogGo cexBrokerDyn).1).Nodup := by
  exact ⟨rfl, by decide⟩

/-- Witness for the amended C2 at the concrete static broker. -/
theorem catalog_ids_unique_witness :
    ((buildCatalogGo cexB2).1.services.map fun s => s.id).Nodup ∧
      (allPlanIDs (buildCatalogGo cexB2).1).Nodup := by
  refine catalog_ids_unique cexB2 (buildCatalogGo cexB2).1 ⟨?_, ?_, ?_, ?_⟩ rfl
  · intro n p h
    injection h with h2
    rw [← h2]
  · intro n p h
    injection h with h2
    rw [← h2]
    refine ⟨?_, ?_⟩
    · intro kv hkv
      rcases List.mem_singleton.mp hkv with rfl
      decide
    · simp
  · simp [cexB2, cexCreds]
  · intro n p h
    exact List.Pairwise.nil

/-! ### Whitelist filtering (C5) -/

theorem filterMap_ite_filter {α β : Type} (p : α → Bool) (f : α → Option β) :
    ∀ l : List α, (l.filterMap fun a => if p a then f a else none) =
      (l.filter p).filterMap f := by
  intro l
  induction l with
  | nil => rfl
  | cons a l ih =>
    rw [List.filterMap_cons, List.filter_cons]
    by_cases hpa : p a
    · rw [if_pos hpa, if_pos hpa, List.filterMap_cons]
      cases f a <;> simp [ih]
    · rw [if_neg hpa, if_neg hpa]
      exact ih

/-- C5: with a whitelist configured, the catalog keeps exactly the
providers holding a whitelist entry (in enumeration order), and every
service in the catalog comes from a provider with an entry and carries
only plans whose names appear in that entry; with no whitelist, the
catalog holds the full raw service of every supported provider. -/
theorem whitelist_filtering (b : Broker) (cat : Catalog)
    (h : buildCatalogGo b = (cat, none)) :
    (∀ wl, b.whitelist = some wl →
      cat.services = ((providerNames.filter fun pn => (wl.lookup pn).isSome).filterMap
          fun pn => (finalServiceFor b pn).toOption) ∧
      ∀ svc ∈ cat.services, ∃ pn ∈ providerNames, ∃ allowed,
          wl.lookup pn = some allowed ∧
          ∀ pl ∈ svc.plans, allowed.contains pl.name = true) ∧
    (b.whitelist = none →
      cat.services = (providerNames.filterMap
          fun pn => (rawServiceFor b pn).toOption.map Prod.fst) ∧
      ∀ pn ∈ providerNames, ∃ sp, rawServiceFor b pn = .ok sp) := by
  obtain ⟨hs, hall⟩ := buildCatalog_success b cat h
  constructor
  · intro wl hwl
    constructor
    · rw [hs]
      have hcongr : ∀ pn ∈ providerNames, svcEntry b pn =
          if (wl.lookup pn).isSome then (finalServiceFor b pn).toOption else none := by
        intro pn _
        rw [svcEntry, admitted, hwl]
      rw [List.filterMap_congr hcongr]
      exact filterMap_ite_filter _ _ providerNames
    · intro svc hsvc
      rw [hs] at hsvc
      rcases List.mem_filterMap.mp hsvc with ⟨pn, hpn, hentry⟩
      refine ⟨pn, hpn, ?_⟩
      rw [svcEntry] at hentry
      by_cases had : admitted b pn
      · rw [if_pos had] at hentry
        have had2 : (wl.lookup pn).isSome := by rw [admitted, hwl] at had; exact had
        rcases Option.isSome_iff_exists.mp had2 with ⟨allowed, hallowed⟩
        refine ⟨allowed, hallowed, ?_⟩
        cases hfin : finalServiceFor b pn with
        | error e => rw [hfin] at hentry; cases hentry
        | ok svc2 =>
          rw [hfin] at hentry
          injection hentry with h2
          rw [finalServiceFor] at hfin
          cases hraw : rawServiceFor b pn with
          | error e => rw [hraw] at hfin; cases hfin
          | ok sp =>
            rw [hraw] at hfin
            injection hfin with h3
            rw [← h2, ← h3]
            intro pl hpl
            have hpl2 : pl ∈ applyWhitelist sp.1.plans ((wl.lookup pn).getD []) := by
              simpa [wlFilterFor, hwl] using hpl
            rw [hallowed] at hpl2
            exact (List.mem_filter.mp hpl2).2
      · rw [if_neg had] at hentry
        cases hentry
  · intro hwl
    constructor
    · rw [hs]
      apply List.filterMap_congr
      intro pn _
      cases hraw : rawServiceFor b pn with
      | error e =>
        simp [svcEntry, admitted, hwl, finalServiceFor, hraw, Except.map, Except.toOption]
      | ok sp =>
        simp [svcEntry, admitted, hwl, finalServiceFor, hraw, wlFilterFor, Except.map,
          Except.toOption]
    · intro pn hpn
      have had : admitted b pn = true := by rw [admitted, hwl]
      rcases hall pn hpn had with ⟨svc, hfin⟩
      rw [finalServiceFor] at hfin
      cases hraw : rawServiceFor b pn with
      | error e => rw [hraw] at hfin; cases hfin
      | ok sp => exact ⟨sp, rfl⟩

/-- Witness for C5 at the whitelisted dynamic broker. -/
theorem whitelist_filtering_witness :
    (buildCatalogGo cexB5).1.services =
      ((providerNames.filter fun pn =>
          (([("AWS", ["foo"])] : List (String × List String)).lookup pn).isSome).filterMap
        fun pn => (finalServiceFor cexB5 pn).toOption) :=
  ((whitelist_filtering cexB5 (buildCatalogGo cexB5).1 rfl).1 [("AWS", ["foo"])] rfl).1

/-! ### Build congruence plumbing -/

theorem buildStep_congr_of_raw (b1 b2 : Broker)
    (hadm : ∀ pn, admitted b1 pn = admitted b2 pn)
    (hwlf : ∀ pn plans, wlFilterFor b1 pn plans = wlFilterFor b2 pn plans)
    (hraw : ∀ pn, rawServiceFor b1 pn = rawServiceFor b2 pn) :
    ∀ (cat : Catalog) (pn : String), buildStep b1 cat pn = buildStep b2 cat pn := by
  intro cat pn
  rw [buildStep, buildStep, hadm pn, hraw pn]
  by_cases had : admitted b2 pn
  · rw [if_pos had, if_pos had]
    cases rawServiceFor b2 pn with
    | error e => rfl
    | ok sp => simp only [hwlf]
  · rw [if_neg had, if_neg had]

theorem buildCatalogGo_congr (b1 b2 : Broker)
    (hstep : ∀ (cat : Catalog) (pn : String), buildStep b1 cat pn = buildStep b2 cat pn) :
    buildCatalogGo b1 = buildCatalogGo b2 :=
  goBuild_congr b1 b2 hstep providerNames newCatalog

theorem buildPlansForProvider_congr (b1 b2 : Broker)
    (hmode : b1.mode = b2.mode)
    (hcred : b1.credentials = b2.credentials)
    (hdynp : ∀ prov, buildPlansForProviderDynamic b1 prov = buildPlansForProviderDynamic b2 prov) :
    ∀ prov, buildPlansForProvider b1 prov = buildPlansForProvider b2 prov := by
  intro prov
  rw [buildPlansForProvider, buildPlansForProvider, ← hmode]
  cases b1.mode with
  | BasicAuth => rfl
  | MultiGroup => rfl
  | MultiGroupAutoPlans => rw [buildPlansForProviderAuto, buildPlansForProviderAuto, hcred]
  | DynamicPlans => rw [hdynp prov]

theorem rawServiceFor_congr (b1 b2 : Broker)
    (hfetch : ∀ pn, pn ≠ "TENANT" → b1.fetchProvider pn = b2.fetchProvider pn)
    (hbp : ∀ prov, buildPlansForProvider b1 prov = buildPlansForProvider b2 prov) :
    ∀ pn, rawServiceFor b1 pn = rawServiceFor b2 pn := by
  intro pn
  rw [rawServiceFor, rawServiceFor]
  by_cases ht : pn = "TENANT"
  · rw [if_pos ht, if_pos ht]
  · rw [if_neg ht, if_neg ht, hfetch pn ht]
    cases b2.fetchProvider pn with
    | error e => rfl
    | ok prov => simp only [hbp prov]

/-! ### Faulty dynamic templates are skipped (C6) -/

/-- C6: a template whose execution fails, whose rendered text fails
decoding, or whose decoded plan fails validation contributes nothing to
any provider and never aborts: the per-provider dynamic plans and the
whole catalog are the same as with the faulty template removed. -/
theorem dyn_template_fault_skipped (b : Broker) (ts1 ts2 : List Template) (t : Template)
    (hfail : ∀ prov : Provider,
      (∃ e, t.execute (dynCtx b prov) = .error e) ∨
      (∃ raw e, t.execute (dynCtx b prov) = .ok raw ∧ b.yamlDecode raw = .error e) ∨
      (∃ raw p, t.execute (dynCtx b prov) = .ok raw ∧ b.yamlDecode raw = .ok p ∧
        invalidDPlan p = true)) :
    (∀ prov : Provider,
      buildPlansForProviderDynamic { b with templates := ts1 ++ t :: ts2 } prov =
        buildPlansForProviderDynamic { b with templates := ts1 ++ ts2 } prov) ∧
    buildCatalogGo { b with templates := ts1 ++ t :: ts2 } =
      buildCatalogGo { b with templates := ts1 ++ ts2 } := by
  have hnone : ∀ prov : Provider, dynPlanForTemplate b prov t = none := by
    intro prov
    rcases hfail prov with ⟨e, he⟩ | ⟨raw, e, hex, hdec⟩ | ⟨raw, p, hex, hdec, hinv⟩
    · simp only [dynPlanForTemplate, he]
    · simp only [dynPlanForTemplate, hex, hdec]
    · simp only [dynPlanForTemplate, hex, hdec, hinv, if_pos]
  have hbuilders : ∀ prov : Provider,
      buildPlansForProviderDynamic { b with templates := ts1 ++ t :: ts2 } prov =
        buildPlansForProviderDynamic { b with templates := ts1 ++ ts2 } prov := by
    intro prov
    show (ts1 ++ t :: ts2).filterMap (dynPlanForTemplate b prov) =
      (ts1 ++ ts2).filterMap (dynPlanForTemplate b prov)
    rw [List.filterMap_append, List.filterMap_append, List.filterMap_cons, hnone prov]
  refine ⟨hbuilders, ?_⟩
  apply buildCatalogGo_congr
  apply buildStep_congr_of_raw
  · intro pn; rfl
  · intro pn plans; rfl
  · exact rawServiceFor_congr _ _ (fun pn _ => rfl)
      (buildPlansForProvider_congr _ _ rfl rfl hbuilders)

/-- Witness for C6 with the always-failing template. -/
theorem dyn_template_fault_skipped_witness :
    buildCatalogGo { cexBrokerDyn with templates := [] ++ cexBadTemplate :: [cexTemplate1] } =
      buildCatalogGo { cexBrokerDyn with templates := [] ++ [cexTemplate1] } :=
  (dyn_template_fault_skipped cexBrokerDyn [] [cexTemplate1] cexBadTemplate
    (fun _ => Or.inl ⟨"boom", rfl⟩)).2

/-! ### Provider scoping of dynamic templates (C7) -/

/-- C7: a valid rendered plan pinning a provider name different from the
provider being processed contributes no plan to that provider (without
error), while the same template contributes its plan to a provider whose
name matches. -/
theorem dyn_provider_scoping (b : Broker) (prov : Provider) (t : Template)
    (raw : String) (p : DPlan) (cl : DPCluster) (ps : ProviderSettings)
    (hex : t.execute (dynCtx b prov) = .ok raw)
    (hdec : b.yamlDecode raw = .ok p)
    (hcl : p.cluster = some cl) (hps : cl.providerSettings = some ps)
    (hsz : ps.instanceSizeName ≠ "") :
    (ps.providerName ≠ "" → ps.providerName ≠ prov.name →
      dynPlanForTemplate b prov t = none ∧
      ∀ ts1 ts2 : List Template,
        buildPlansForProviderDynamic { b with templates := ts1 ++ t :: ts2 } prov =
          buildPlansForProviderDynamic { b with templates := ts1 ++ ts2 } prov) ∧
    (ps.providerName = prov.name → t ∈ b.templates →
      ∃ pl ∈ buildPlansForProviderDynamic b prov,
        pl.id = planIDForDynamicPlan prov.name p.name ∧ pl.name = p.name) := by
  have hinv : invalidDPlan p = false := by
    simp only [invalidDPlan, hcl, hps]
    simp [hsz]
  constructor
  · intro hpn1 hpn2
    have hnone : dynPlanForTemplate b prov t = none := by
      simp only [dynPlanForTemplate, hex, hdec, hinv, hcl, hps, Bool.false_eq_true,
        ite_false]
      rw [if_pos ⟨hpn1, hpn2⟩]
    refine ⟨hnone, ?_⟩
    intro ts1 ts2
    show (ts1 ++ t :: ts2).filterMap (dynPlanForTemplate b prov) =
      (ts1 ++ ts2).filterMap (dynPlanForTemplate b prov)
    rw [List.filterMap_append, List.filterMap_append, List.filterMap_cons, hnone]
  · intro hpn hmem
    have hsome : dynPlanForTemplate b prov t = some
        { id := planIDForDynamicPlan prov.name p.name
          name := p.name
          description := p.description
          free := p.free
          metadata := some { template := some t
                             instanceSize := some (lookupSize prov.instanceSizes ps.instanceSizeName)
                             groupID := none } } := by
      simp only [dynPlanForTemplate, hex, hdec, hinv, hcl, hps, Bool.false_eq_true,
        ite_false]
      rw [if_neg]
      rintro ⟨_, h2⟩
      exact h2 hpn
    exact ⟨_, List.mem_filterMap.mpr ⟨t, hmem, hsome⟩, rfl, rfl⟩

/-- Witness for C7: the GCP-pinned template contributes no plan to the
AWS provider. -/
theorem dyn_provider_scoping_witness :
    dynPlanForTemplate cexB7 awsProv cexGcpTemplate = none :=
  ((dyn_provider_scoping cexB7 awsProv cexGcpTemplate "gcp plan"
      { name := "gplan", description := "gcp plan", free := none, project := none
        cluster := some { name := "c"
                          providerSettings := some { providerName := "GCP", instanceSizeName := "M10" } } }
      { name := "c", providerSettings := some { providerName := "GCP", instanceSizeName := "M10" } }
      { providerName := "GCP", instanceSizeName := "M10" }
      rfl rfl rfl rfl (by decide)).1 (by decide) (by decide)).1

/-! ### The hardcoded shared service (C8) -/

/-- C8: catalog construction handles the TENANT provider by the hardcoded
shared service, whose plans are exactly M2 and M5 with their fixed IDs,
in every mode, and never calls the backend for it: the built catalog is
unchanged under any change to the behavior of the fetch function at
TENANT. -/
theorem tenant_service_hardcoded :
    (∀ b : Broker, rawServiceFor b "TENANT" = .ok (sharedService, none)) ∧
    (sharedService.plans.map fun p => (p.id, p.name)) =
      [("aosb-cluster-plan-tenant-m2", "M2"), ("aosb-cluster-plan-tenant-m5", "M5")] ∧
    ∀ (b : Broker) (f2 : String → Except String Provider),
      (∀ n, n ≠ "TENANT" → f2 n = b.fetchProvider n) →
      buildCatalogGo { b with fetchProvider := f2 } = buildCatalogGo b := by
  refine ⟨fun b => rfl, rfl, ?_⟩
  intro b f2 hagree
  apply buildCatalogGo_congr
  apply buildStep_congr_of_raw
  · intro pn; rfl
  · intro pn plans; rfl
  · exact rawServiceFor_congr _ _ (fun pn hpn => hagree pn hpn)
      (buildPlansForProvider_congr _ _ rfl rfl fun prov => rfl)

/-- Witness for C8: replacing the fetch function by one that fails at
TENANT leaves the catalog unchanged. -/
theorem tenant_service_hardcoded_witness :
    buildCatalogGo { cexB4 with fetchProvider := cexFetchT } = buildCatalogGo cexB4 :=
  tenant_service_hardcoded.2.2 cexB4 cexFetchT fun _ hn => if_neg hn

end AtlasOSB
